import Mathlib

/-!
Verification development for the `srt_compositor` live-streaming compositor
(`src/compositor/srt_compositor.c`).  The program composes an unreliable
inbound SRT feed over a looping background file and emits a paced H.264+AAC
stream.  This file gives a shallow embedding of the pieces the checked
properties talk about: the shared slot connect/disconnect operations of the
inbound reader thread, the audio-frame encode primitive, the audio source
state machine, the per-tick body of the pacing encoder loop (`main_loop`),
and the CLI/config startup logic of `main`.

Modelling conventions:
* machine integers (`int`, `int64_t`) become `Nat` where the source keeps
  them non-negative (pts counters, sizes, rates) and `Int` for monotonic
  microsecond timestamps; none of the modelled quantities approaches the
  64-bit range, so wrap-around is not modelled;
* one planar-float stereo sample instant is a pair of `Int` values (one per
  channel plane); zero in both planes is silence;
* an `AVAudioFifo` is a `List Sample` (front = oldest, FIFO order);
* concurrency with the reader thread is serialized at tick boundaries: the
  audio the reader published since the previous tick is a tick input that is
  appended to the shared queue before the tick body runs.
-/

namespace SrtCompositor

/-- One stereo sample instant: the value of the left and right sample plane
at one sample index (the C code stores planar float stereo). -/
abbrev Sample := Int × Int

/-- A zero sample in both planes (what `memset(..., 0, ...)` writes). -/
def silence : Sample := (0, 0)

/-- `enum AudioMode { AUDIO_SRT, AUDIO_GRACE, AUDIO_BG }` from the header. -/
inductive AudioMode
  | SRT
  | GRACE
  | BG
deriving DecidableEq

/-- The fields of `SrtShared` the reader thread publishes (the pixel planes
are not needed by any checked property; `has_video` stands for them). -/
structure SrtShared where
  connected : Bool
  has_video : Bool
  audio_fifo : List Sample
  last_frame_time : Int
deriving DecidableEq

/-- `srt_thread_func`, lines 271-276: on a successful open, under the lock,
set `connected = 1`, refresh `last_frame_time`, clear `has_video`, and
`av_audio_fifo_reset(sh->audio_fifo)`. -/
def mark_connected (sh : SrtShared) (now : Int) : SrtShared :=
  { sh with connected := true, has_video := false, audio_fifo := [],
            last_frame_time := now }

/-- `srt_thread_func`, lines 283-286 (read error) and 339-342 (liveness
timeout): under the lock, set `connected = 0` and `has_video = 0`.  The code
does not touch `sh->audio_fifo` on either disconnect path. -/
def mark_disconnected (sh : SrtShared) : SrtShared :=
  { sh with connected := false, has_video := false }

/-- The configuration fields the pacing loop reads, plus the AAC encoder's
reported frame size (`app->out.audio_enc_ctx->frame_size`, 0 when the
encoder reports none) and the already-computed grace interval
`(int64_t)(g_cfg.bg_unmute_delay * 1e6)` in microseconds. -/
structure Cfg where
  out_fps : Nat
  sample_rate : Nat
  frame_size : Nat
  grace_us : Int

/-- `main_loop` lines 526-527: `int aframe_sz = ...frame_size; if
(aframe_sz <= 0) aframe_sz = 1024;`. -/
def effAframeSz (raw : Nat) : Nat :=
  if raw = 0 then 1024 else raw

/-- `main_loop` line 601: `int srt_max_buf = (g_cfg.sample_rate * 300) /
1000;` — 300 ms of samples at the output rate (C integer division). -/
def srtMaxBuf (c : Cfg) : Nat :=
  (c.sample_rate * 300) / 1000

/-- `main_loop` line 624: `int64_t target_audio = (video_pts *
sample_rate) / out_fps;` (C integer division on non-negative values). -/
def targetAudio (c : Cfg) (video_pts : Nat) : Nat :=
  (video_pts * c.sample_rate) / c.out_fps

/-- One audio frame handed to the AAC encoder: its sample planes (as a list
of stereo sample instants of length `aframe_sz`) and its assigned pts. -/
structure AudioFrameOut where
  data : List Sample
  pts : Nat
deriving DecidableEq

/-- `encode_one_audio_frame`, lines 481-517, data part: with `avail =
av_audio_fifo_size(fifo)`, if `avail >= aframe_sz` read `aframe_sz` samples
from the fifo into the frame; otherwise `memset` every plane to zero and
then (when `avail > 0`) read the `avail` available samples into the start of
the frame, leaving the fifo empty.  Then `f->pts = audio_pts; audio_pts +=
aframe_sz`.  Returns (frame, remaining fifo, new audio_pts). -/
def encode_one_audio_frame (fifo : List Sample) (aframe_sz : Nat)
    (audio_pts : Nat) : AudioFrameOut × List Sample × Nat :=
  if aframe_sz ≤ fifo.length then
    (⟨fifo.take aframe_sz, audio_pts⟩, fifo.drop aframe_sz,
     audio_pts + aframe_sz)
  else
    (⟨fifo ++ List.replicate (aframe_sz - fifo.length) silence, audio_pts⟩,
     [], audio_pts + aframe_sz)

/-- The audio source state machine, `main_loop` lines 561-580, run once per
tick with a single monotonic `now` reading.  Returns the new mode and the
new `srt_drop_time`.  (The Background Audio Queue reset on SRT entry is a
side effect handled in `main_loop_tick`.) -/
def audio_mode_step (use_srt_video : Bool) (mode : AudioMode)
    (drop_time now grace_us : Int) : AudioMode × Int :=
  if use_srt_video then
    (AudioMode.SRT, drop_time)
  else
    let p := if mode = AudioMode.SRT then (AudioMode.GRACE, now)
             else (mode, drop_time)
    if p.1 = AudioMode.GRACE ∧ now - p.2 > grace_us then
      (AudioMode.BG, p.2)
    else p

/-- `main_loop` lines 602-621 (AUDIO_SRT only): drain the whole shared
audio fifo into the local SRT fifo, then if the local fifo exceeds
`srt_max_buf` samples read (= discard) the oldest `local_sz - srt_max_buf`
samples.  Returns the local fifo as it stands when the encode phase begins
(the shared fifo is left empty). -/
def srt_drain_and_trim (localq sharedq : List Sample) (maxBuf : Nat) :
    List Sample :=
  let combined := localq ++ sharedq
  if maxBuf < combined.length then
    combined.drop (combined.length - maxBuf)
  else combined

/-- Result of the audio catch-up loop: final `audio_pts`, the emitted audio
frames in order, and the final local SRT / background / shared queues. -/
structure CatchupRes where
  audio_pts : Nat
  frames : List AudioFrameOut
  localq : List Sample
  bgq : List Sample
  sharedq : List Sample
deriving DecidableEq

/-- The `while (audio_pts < target_audio)` loop of `main_loop`, lines
625-644, with explicit fuel for structural recursion.  Each loop iteration
advances `audio_pts` by `aframe_sz`, so when `aframe_sz ≥ 1` (which
`effAframeSz` guarantees for every actual call) a fuel of
`target - audio_pts` is never exhausted before the loop condition fails;
the fuel-out case only totalizes the `aframe_sz = 0` behaviour the C code
never runs with.
* `AUDIO_SRT`: encode one whole frame from the local fifo if it holds at
  least `aframe_sz` samples, else `goto audio_done` (stop, no padding);
* `AUDIO_GRACE`: encode one frame from the local fifo, then reset both the
  local fifo and the shared fifo;
* `AUDIO_BG`: encode one frame from the background fifo (the primitive
  zero-pads a short read). -/
def audio_catchup_fuel (mode : AudioMode) (aframe_sz target : Nat) :
    Nat → Nat → List Sample → List Sample → List Sample → CatchupRes
  | 0, apts, localq, bgq, sharedq => ⟨apts, [], localq, bgq, sharedq⟩
  | fuel + 1, apts, localq, bgq, sharedq =>
    if apts < target then
      match mode with
      | AudioMode.SRT =>
        if aframe_sz ≤ localq.length then
          let e := encode_one_audio_frame localq aframe_sz apts
          let r := audio_catchup_fuel mode aframe_sz target fuel
                     e.2.2 e.2.1 bgq sharedq
          ⟨r.audio_pts, e.1 :: r.frames, r.localq, r.bgq, r.sharedq⟩
        else ⟨apts, [], localq, bgq, sharedq⟩
      | AudioMode.GRACE =>
        let e := encode_one_audio_frame localq aframe_sz apts
        let r := audio_catchup_fuel mode aframe_sz target fuel
                   e.2.2 [] bgq []
        ⟨r.audio_pts, e.1 :: r.frames, r.localq, r.bgq, r.sharedq⟩
      | AudioMode.BG =>
        let e := encode_one_audio_frame bgq aframe_sz apts
        let r := audio_catchup_fuel mode aframe_sz target fuel
                   e.2.2 localq e.2.1 sharedq
        ⟨r.audio_pts, e.1 :: r.frames, r.localq, r.bgq, r.sharedq⟩
    else ⟨apts, [], localq, bgq, sharedq⟩

/-- The audio catch-up loop with its natural fuel. -/
def audio_catchup (mode : AudioMode) (aframe_sz target apts : Nat)
    (localq bgq sharedq : List Sample) : CatchupRes :=
  audio_catchup_fuel mode aframe_sz target (target - apts)
    apts localq bgq sharedq

/-- The pacing-loop state carried across ticks of `main_loop`, plus the
output clock fields of `OutputCtx` (`video_pts`, `audio_pts`). -/
structure LoopState where
  video_pts : Nat
  audio_pts : Nat
  mode : AudioMode
  drop_time : Int
  srt_local : List Sample
  bg_fifo : List Sample
  shared_audio : List Sample
deriving DecidableEq

/-- The per-tick environment: the slot sample result (`use_srt_video`),
whether one of the up-to-5 background reads produced a video frame
(`have_bg`, which implies `bg_frame->data[0]` is allocated), the background
audio those reads appended, the audio the reader thread published into the
shared fifo since the previous tick, and this tick's monotonic clock. -/
structure TickIn where
  use_srt_video : Bool
  have_bg : Bool
  bg_audio : List Sample
  shared_in : List Sample
  now : Int

/-- What one tick emits downstream: the number of encoded video frames and
the encoded audio frames in order. -/
structure TickOut where
  videoFrames : Nat
  audioFrames : List AudioFrameOut
deriving DecidableEq

/-- One iteration of the `while (g_running)` body of `main_loop`, lines
537-669, in source order: background reads append background audio (and the
reader's published audio lands in the shared fifo); the audio mode machine
steps, resetting the background fifo on entry into `AUDIO_SRT`; the video
phase encodes exactly one frame when `use_srt_video` or a background frame
is available, else none; in `AUDIO_SRT` the shared fifo is drained into the
local fifo and trimmed to `srt_max_buf`; finally the audio catch-up loop
runs against `target_audio = (video_pts * sample_rate) / out_fps`. -/
def main_loop_tick (c : Cfg) (s : LoopState) (i : TickIn) :
    LoopState × TickOut :=
  let sz := effAframeSz c.frame_size
  let bgq0 := s.bg_fifo ++ i.bg_audio
  let shared0 := s.shared_audio ++ i.shared_in
  let md := audio_mode_step i.use_srt_video s.mode s.drop_time i.now
              c.grace_us
  let bgq1 := if i.use_srt_video ∧ s.mode ≠ AudioMode.SRT then [] else bgq0
  let nv := if i.use_srt_video ∨ i.have_bg then 1 else 0
  let vpts := s.video_pts + nv
  let qs :=
    if md.1 = AudioMode.SRT then
      (srt_drain_and_trim s.srt_local shared0 (srtMaxBuf c), ([] : List Sample))
    else (s.srt_local, shared0)
  let r := audio_catchup md.1 sz (targetAudio c vpts) s.audio_pts
             qs.1 bgq1 qs.2
  ({ video_pts := vpts, audio_pts := r.audio_pts, mode := md.1,
     drop_time := md.2, srt_local := r.localq, bg_fifo := r.bgq,
     shared_audio := r.sharedq },
   ⟨nv, r.frames⟩)

/-- The state `main_loop` starts from: `o->video_pts = o->audio_pts = 0`
(`open_output`, line 403), `audio_mode = AUDIO_BG`, `srt_drop_time = 0`
(lines 531-532), and all three main-thread fifos freshly allocated empty. -/
def initState : LoopState :=
  ⟨0, 0, AudioMode.BG, 0, [], [], []⟩

/-- Run `main_loop` over a finite list of tick environments, collecting the
final state and the per-tick outputs. -/
def main_loop_run (c : Cfg) : LoopState → List TickIn →
    LoopState × List TickOut
  | s, [] => (s, [])
  | s, i :: is =>
    let t := main_loop_tick c s i
    let rest := main_loop_run c t.1 is
    (rest.1, t.2 :: rest.2)

/-! ### CLI argument parsing and config loading (`main`, `load_config`) -/

/-- The two string fields of `g_cfg` the startup path decides on (buffer
truncation at the 2048-byte field size is elided; no checked property
involves strings that long). -/
structure CliCfg where
  srt_url : String
  bg_file : String
deriving DecidableEq

/-- `argv[i][0] != '-'`: the argument is treated as a legacy positional.
An empty argument's first byte is NUL, which also differs from `'-'`. -/
def isPositional (a : String) : Bool :=
  a.data.head? ≠ some '-'

/-- The argument loop of `main`, lines 692-702: `--config` followed by a
further argument records that argument as the config path; otherwise a
non-dash argument fills `srt_url` first and `bg_file` afterwards; anything
else is skipped.  A trailing `--config` with no following argument fails
the `i + 1 < argc` test and, starting with a dash, is skipped. -/
def parseArgs : List String → CliCfg → Option String →
    CliCfg × Option String
  | [], cfg, cp => (cfg, cp)
  | a :: rest, cfg, cp =>
    if a = "--config" then
      match rest with
      | b :: rest2 => parseArgs rest2 cfg (some b)
      | [] => (cfg, cp)
    else if isPositional a ∧ cfg.srt_url = "" then
      parseArgs rest { cfg with srt_url := a } cp
    else if isPositional a then
      parseArgs rest { cfg with bg_file := a } cp
    else
      parseArgs rest cfg cp

/-- `json_get_str`, lines 48-65, over a flat JSON object abstracted as a
key/value association list (first occurrence wins, as with `strstr`): a key
present with a string value yields that value; a key absent from the file
yields the default. -/
def json_get_str (j : List (String × String)) (key dflt : String) :
    String :=
  match j.lookup key with
  | some v => v
  | none => dflt

/-- The string-field part of `load_config`, lines 84-86: each field is
unconditionally overwritten with the file's value or the shown default,
regardless of what the argument loop put there. -/
def load_config (j : List (String × String)) (cfg : CliCfg) : CliCfg :=
  { cfg with
    srt_url := json_get_str j "srt_url" "",
    bg_file := json_get_str j "bg_file" "background.mp4" }

/-- How the startup path of `main` ends: config-load failure (`return 1`
at line 705), the usage message (`return 1` at lines 708-712 when
`srt_url` is empty), or proceeding to run with the final configuration. -/
inductive StartupResult
  | configFail
  | usageExit
  | started (cfg : CliCfg)
deriving DecidableEq

/-- The startup decision of `main`, lines 688-712: defaults, the argument
loop, then — after all positional parsing — `load_config` when `--config`
was given, then the usage check on `srt_url`.  The filesystem is a map from
paths to parsed flat JSON objects (`none` = `load_config` fails). -/
def mainStartup (args : List String)
    (fs : String → Option (List (String × String))) : StartupResult :=
  let p := parseArgs args ⟨"", "background.mp4"⟩ none
  match p.2 with
  | some path =>
    match fs path with
    | none => StartupResult.configFail
    | some j =>
      let cfg := load_config j p.1
      if cfg.srt_url = "" then StartupResult.usageExit
      else StartupResult.started cfg
  | none =>
    if p.1.srt_url = "" then StartupResult.usageExit
    else StartupResult.started p.1

/-! ### Helper lemmas about the encode primitive and the catch-up loop -/

/-- `encode_one_audio_frame` always advances `audio_pts` by exactly
`aframe_sz`, in both the full-read and the zero-fill branch. -/
theorem enc_pts (fifo : List Sample) (sz a : Nat) :
    (encode_one_audio_frame fifo sz a).2.2 = a + sz := by
  unfold encode_one_audio_frame
  split <;> rfl

/-- The catch-up loop advances `audio_pts` by `aframe_sz` for each frame it
emits. -/
theorem catchup_fuel_pts (m : AudioMode) (sz t : Nat) :
    ∀ (fuel a : Nat) (l b s : List Sample),
      (audio_catchup_fuel m sz t fuel a l b s).audio_pts =
        a + sz * (audio_catchup_fuel m sz t fuel a l b s).frames.length := by
  intro fuel
  induction fuel with
  | zero => intro a l b s; simp [audio_catchup_fuel]
  | succ n ih =>
    intro a l b s
    simp only [audio_catchup_fuel]
    by_cases h : a < t
    · simp only [if_pos h]
      cases m with
      | SRT =>
        by_cases h2 : sz ≤ l.length
        · simp only [if_pos h2, enc_pts, ih, List.length_cons, Nat.mul_succ]
          omega
        · simp [h2]
      | GRACE =>
        simp only [enc_pts, ih, List.length_cons, Nat.mul_succ]
        omega
      | BG =>
        simp only [enc_pts, ih, List.length_cons, Nat.mul_succ]
        omega
    · simp [h]

/-- The catch-up loop never pushes `audio_pts` to `target + aframe_sz` or
beyond: every iteration starts strictly below `target` and adds
`aframe_sz`. -/
theorem catchup_fuel_bound (m : AudioMode) (sz t : Nat) :
    ∀ (fuel a : Nat) (l b s : List Sample), a < t + sz →
      (audio_catchup_fuel m sz t fuel a l b s).audio_pts < t + sz := by
  intro fuel
  induction fuel with
  | zero => intro a l b s ha; simpa [audio_catchup_fuel] using ha
  | succ n ih =>
    intro a l b s ha
    simp only [audio_catchup_fuel]
    by_cases h : a < t
    · simp only [if_pos h]
      cases m with
      | SRT =>
        by_cases h2 : sz ≤ l.length
        · simp only [if_pos h2, enc_pts]
          exact ih _ _ _ _ (by omega)
        · simpa [h2] using ha
      | GRACE =>
        simp only [enc_pts]
        exact ih _ _ _ _ (by omega)
      | BG =>
        simp only [enc_pts]
        exact ih _ _ _ _ (by omega)
    · simpa [h] using ha

/-- In `AUDIO_GRACE`, once the local and shared queues are empty every
frame the loop emits is pure silence and both queues stay empty. -/
theorem catchup_fuel_grace_empty (sz t : Nat) :
    ∀ (fuel a : Nat) (b : List Sample),
      (∀ f ∈ (audio_catchup_fuel AudioMode.GRACE sz t fuel a [] b []).frames,
        ∀ x ∈ f.data, x = silence) ∧
      (audio_catchup_fuel AudioMode.GRACE sz t fuel a [] b []).localq = [] ∧
      (audio_catchup_fuel AudioMode.GRACE sz t fuel a [] b []).sharedq = [] := by
  intro fuel
  induction fuel with
  | zero => intro a b; simp [audio_catchup_fuel]
  | succ n ih =>
    intro a b
    simp only [audio_catchup_fuel]
    by_cases h : a < t
    · simp only [if_pos h]
      refine ⟨?_, (ih _ b).2.1, (ih _ b).2.2⟩
      intro f hf x hx
      rcases List.mem_cons.mp hf with h1 | h1
      · subst h1
        simp only [encode_one_audio_frame] at hx
        rcases Nat.eq_zero_or_pos sz with hsz | hsz
        · subst hsz
          simp [encode_one_audio_frame] at hx
        · rw [if_neg (by simpa using Nat.not_le.mpr hsz)] at hx
          simp only [List.nil_append] at hx
          exact (List.eq_of_mem_replicate hx)
      · exact (ih _ b).1 f h1 x hx
    · simp [h]

/-- In `AUDIO_GRACE` with arbitrary initial queues: every emitted frame
after the first is pure silence, and if at least one frame was emitted the
local and shared queues end empty (they are reset after every frame). -/
theorem catchup_fuel_grace (sz t fuel a : Nat) (l b s : List Sample) :
    (∀ f ∈ (audio_catchup_fuel AudioMode.GRACE sz t fuel a l b s).frames.drop 1,
      ∀ x ∈ f.data, x = silence) ∧
    ((audio_catchup_fuel AudioMode.GRACE sz t fuel a l b s).frames ≠ [] →
      (audio_catchup_fuel AudioMode.GRACE sz t fuel a l b s).localq = [] ∧
      (audio_catchup_fuel AudioMode.GRACE sz t fuel a l b s).sharedq = []) := by
  cases fuel with
  | zero => simp [audio_catchup_fuel]
  | succ n =>
    simp only [audio_catchup_fuel]
    by_cases h : a < t
    · simp only [if_pos h]
      refine ⟨?_, fun _ => ⟨(catchup_fuel_grace_empty sz t n _ b).2.1,
        (catchup_fuel_grace_empty sz t n _ b).2.2⟩⟩
      intro f hf x hx
      simp only [List.drop_succ_cons, List.drop_zero] at hf
      exact (catchup_fuel_grace_empty sz t n _ b).1 f hf x hx
    · simp [h]

/-- In `AUDIO_SRT`, a local queue with fewer samples than one encoder frame
makes the loop exit immediately, emitting nothing and changing nothing. -/
theorem catchup_fuel_srt_short (sz t : Nat) :
    ∀ (fuel a : Nat) (l b s : List Sample), l.length < sz →
      audio_catchup_fuel AudioMode.SRT sz t fuel a l b s = ⟨a, [], l, b, s⟩ := by
  intro fuel a l b s hl
  cases fuel with
  | zero => simp [audio_catchup_fuel]
  | succ n =>
    simp only [audio_catchup_fuel]
    by_cases h : a < t
    · simp [h, Nat.not_le.mpr hl]
    · simp [h]

/-- In `AUDIO_SRT` the catch-up loop never touches the background queue. -/
theorem catchup_fuel_srt_bgq (sz t : Nat) :
    ∀ (fuel a : Nat) (l b s : List Sample),
      (audio_catchup_fuel AudioMode.SRT sz t fuel a l b s).bgq = b := by
  intro fuel
  induction fuel with
  | zero => intro a l b s; simp [audio_catchup_fuel]
  | succ n ih =>
    intro a l b s
    simp only [audio_catchup_fuel]
    by_cases h : a < t
    · by_cases h2 : sz ≤ l.length
      · simp [h, h2, ih]
      · simp [h, h2]
    · simp [h]

/-- In `AUDIO_SRT` every emitted sample comes from the local queue: the
concatenated frame data followed by the remaining queue reconstructs the
queue the loop started from (so no silence is ever injected). -/
theorem catchup_fuel_srt_conserve (sz t : Nat) :
    ∀ (fuel a : Nat) (l b s : List Sample),
      ((audio_catchup_fuel AudioMode.SRT sz t fuel a l b s).frames.map
          AudioFrameOut.data).flatten ++
        (audio_catchup_fuel AudioMode.SRT sz t fuel a l b s).localq = l := by
  intro fuel
  induction fuel with
  | zero => intro a l b s; simp [audio_catchup_fuel]
  | succ n ih =>
    intro a l b s
    simp only [audio_catchup_fuel]
    by_cases h : a < t
    · by_cases h2 : sz ≤ l.length
      · simp only [h, h2, if_true, ite_true, if_pos]
        simp only [encode_one_audio_frame, h2, if_true, ite_true, if_pos,
          List.map_cons, List.flatten_cons, List.append_assoc, ih]
        exact List.take_append_drop _ _
      · simp [h, h2]
    · simp [h]

/-- `effAframeSz` is at least 1, as the C guard ensures. -/
theorem effAframeSz_pos (raw : Nat) : 0 < effAframeSz raw := by
  unfold effAframeSz
  split <;> omega

/-- `target_audio` is monotone in `video_pts`. -/
theorem targetAudio_mono (c : Cfg) {v w : Nat} (h : v ≤ w) :
    targetAudio c v ≤ targetAudio c w :=
  Nat.div_le_div_right (Nat.mul_le_mul_right _ h)

/-- One tick preserves the bounded-overshoot invariant: `audio_pts` stays
strictly below `target_audio + aframe_sz`. -/
theorem tick_pts_lt (c : Cfg) (s : LoopState) (i : TickIn)
    (h : s.audio_pts <
      targetAudio c s.video_pts + effAframeSz c.frame_size) :
    (main_loop_tick c s i).1.audio_pts <
      targetAudio c (main_loop_tick c s i).1.video_pts +
        effAframeSz c.frame_size := by
  simp only [main_loop_tick, audio_catchup]
  exact catchup_fuel_bound _ _ _ _ _ _ _ _
    (lt_of_lt_of_le h (Nat.add_le_add_right
      (targetAudio_mono c (Nat.le_add_right _ _)) _))

/-- The bounded-overshoot invariant is preserved along any run. -/
theorem run_pts_lt (c : Cfg) :
    ∀ (ins : List TickIn) (s : LoopState),
      s.audio_pts < targetAudio c s.video_pts + effAframeSz c.frame_size →
      (main_loop_run c s ins).1.audio_pts <
        targetAudio c (main_loop_run c s ins).1.video_pts +
          effAframeSz c.frame_size := by
  intro ins
  induction ins with
  | nil => intro s h; simpa [main_loop_run] using h
  | cons i is ih =>
    intro s h
    simp only [main_loop_run]
    exact ih _ (tick_pts_lt c s i h)

/-- C1: after every tick of the pacing encoder loop,
`audio_pts ≤ (video_pts × sample_rate) / fps`.  FALSE on the code: the
catch-up loop runs `while (audio_pts < target_audio)` and each iteration
adds a whole `aframe_sz`, so the last frame may overshoot the target.
Concretely, with `out_fps = 2`, `sample_rate = 3`, `frame_size = 3`, one
background-mode tick from the initial state encodes one video frame
(`video_pts = 1`, so `target_audio = 3 / 2 = 1`) and one audio frame,
leaving `audio_pts = 3 > 1`. -/
theorem C1_counterexample :
    (main_loop_tick ⟨2, 3, 3, 0⟩ initState ⟨false, true, [], [], 0⟩).1.video_pts = 1 ∧
    (main_loop_tick ⟨2, 3, 3, 0⟩ initState ⟨false, true, [], [], 0⟩).1.audio_pts = 3 ∧
    ¬ ((main_loop_tick ⟨2, 3, 3, 0⟩ initState ⟨false, true, [], [], 0⟩).1.audio_pts ≤
        targetAudio ⟨2, 3, 3, 0⟩
          (main_loop_tick ⟨2, 3, 3, 0⟩ initState ⟨false, true, [], [], 0⟩).1.video_pts) := by
  decide

/-- C1 (amended): after every tick of the pacing encoder loop,
`audio_pts < (video_pts × sample_rate) / fps + aframe_sz` — the audio
clock may overshoot the video-derived target, but by strictly less than
one audio frame, because the catch-up loop only encodes while
`audio_pts < target_audio` and each frame adds exactly `aframe_sz`
samples. -/
theorem C1_audio_overshoot_bounded (c : Cfg) (ins : List TickIn) :
    (main_loop_run c initState ins).1.audio_pts <
      targetAudio c (main_loop_run c initState ins).1.video_pts +
        effAframeSz c.frame_size := by
  refine run_pts_lt c ins initState ?_
  have h := effAframeSz_pos c.frame_size
  simp only [initState, targetAudio, Nat.zero_mul, Nat.zero_div]
  omega

/-- C2: in the GRACE audio state every emitted audio frame is exact
silence.  FALSE on the code: the GRACE branch calls
`encode_one_audio_frame(app, app->srt_local_fifo, aframe_sz)` BEFORE
resetting the fifos, so the first grace frame reads whatever samples were
still in the local SRT queue.  Concretely (fps 10, rate 1000, frame 64): a
first SRT tick receives 80 inbound samples of value (1,1) and leaves 16 in
the local queue; the second tick drops to GRACE and its first audio frame
starts with sample (1,1), not silence. -/
theorem C2_counterexample :
    ((main_loop_run ⟨10, 1000, 64, 5000000⟩ initState
        [⟨true, true, [], List.replicate 80 ((1:Int),(1:Int)), 0⟩,
         ⟨false, true, [], [], 1000⟩]).1.mode = AudioMode.GRACE) ∧
    ((((main_loop_run ⟨10, 1000, 64, 5000000⟩ initState
        [⟨true, true, [], List.replicate 80 ((1:Int),(1:Int)), 0⟩,
         ⟨false, true, [], [], 1000⟩]).2.drop 1).headD
          ⟨0, []⟩).audioFrames.headD ⟨[], 0⟩).data.headD silence =
      ((1:Int),(1:Int)) ∧
    ((1:Int),(1:Int)) ≠ silence := by
  decide

/-- C2 (amended): in the GRACE audio state, every audio frame emitted
after the first of the tick is exact silence (the first frame may overlay
residual Local SRT Queue samples over an otherwise zero-filled frame,
because the encode happens before the reset), and after each GRACE frame
both the Local SRT Queue and the Shared Slot's audio queue are reset to
empty, so a tick that emitted any GRACE audio ends with both queues
empty. -/
theorem C2_grace_silence_after_first (c : Cfg) (s : LoopState) (i : TickIn)
    (h : (main_loop_tick c s i).1.mode = AudioMode.GRACE) :
    (∀ f ∈ (main_loop_tick c s i).2.audioFrames.drop 1,
      ∀ x ∈ f.data, x = silence) ∧
    ((main_loop_tick c s i).2.audioFrames ≠ [] →
      (main_loop_tick c s i).1.srt_local = [] ∧
      (main_loop_tick c s i).1.shared_audio = []) := by
  have hm : (audio_mode_step i.use_srt_video s.mode s.drop_time i.now
      c.grace_us).1 = AudioMode.GRACE := by
    simpa only [main_loop_tick] using h
  simp only [main_loop_tick, audio_catchup, hm]
  simp only [show (AudioMode.GRACE = AudioMode.SRT) = False from by simp,
    if_false, ite_false]
  exact ⟨(catchup_fuel_grace _ _ _ _ _ _ _).1,
    fun hne => (catchup_fuel_grace _ _ _ _ _ _ _).2 hne⟩

/-- C2 witness: a concrete tick that lands in GRACE, with the amended
theorem applied to it. -/
theorem C2_grace_witness :
    (main_loop_tick ⟨2, 3, 3, 0⟩ ⟨1, 0, AudioMode.SRT, 0, [], [], []⟩
        ⟨false, true, [], [], 0⟩).1.mode = AudioMode.GRACE ∧
    (∀ f ∈ (main_loop_tick ⟨2, 3, 3, 0⟩ ⟨1, 0, AudioMode.SRT, 0, [], [], []⟩
        ⟨false, true, [], [], 0⟩).2.audioFrames.drop 1,
      ∀ x ∈ f.data, x = silence) :=
  ⟨by decide,
   (C2_grace_silence_after_first ⟨2, 3, 3, 0⟩
     ⟨1, 0, AudioMode.SRT, 0, [], [], []⟩
     ⟨false, true, [], [], 0⟩ (by decide)).1⟩

/-- C3: only the first tick may produce zero video frames.  FALSE on the
code: the video phase encodes nothing whenever `use_srt_video` is false
and none of the 5 background reads produced a video frame, on ANY tick.
Concretely, a first tick with a background frame encodes one video frame
and a second tick with neither SRT video nor a background frame encodes
zero. -/
theorem C3_counterexample :
    ((main_loop_run ⟨2, 3, 3, 0⟩ initState
        [⟨false, true, [], [], 0⟩,
         ⟨false, false, [], [], 0⟩]).2.map TickOut.videoFrames) = [1, 0] := by
  decide

/-- C3 (amended): every tick encodes exactly one video frame when
`use_srt_video` is true or a background video frame was produced this
tick, and zero video frames otherwise — and a zero-video tick can occur
whenever the background source yields no frame, not only on the first
tick. -/
theorem C3_one_video_frame_per_tick (c : Cfg) (s : LoopState) (i : TickIn) :
    (main_loop_tick c s i).2.videoFrames =
      if i.use_srt_video ∨ i.have_bg then 1 else 0 := rfl

/-- C4: the inbound reader's disconnect operation sets `connected` false,
clears `has_video`, and resets the shared audio queue to empty.  FALSE on
the code: both disconnect sites (read error, lines 283-286, and timeout,
lines 339-342) only clear `connected` and `has_video`; the shared audio
fifo is reset on CONNECT (line 275), not on disconnect.  Concretely, a
slot holding one sample still holds it after `mark_disconnected`. -/
theorem C4_counterexample :
    (mark_disconnected ⟨true, true, [((1:Int),(2:Int))], 5⟩).audio_fifo =
      [((1:Int),(2:Int))] ∧
    ([((1:Int),(2:Int))] : List Sample) ≠ [] := by
  decide

/-- C4 (amended): the disconnect operation (taken on read error and on
liveness timeout) sets `connected` to false and clears `has_video` under
the mutex, but leaves the Shared Slot's audio queue untouched — residual
samples remain for the main loop to drain; the queue is instead reset by
the connect operation. -/
theorem C4_disconnect_fields (sh : SrtShared) (now : Int) :
    (mark_disconnected sh).connected = false ∧
    (mark_disconnected sh).has_video = false ∧
    (mark_disconnected sh).audio_fifo = sh.audio_fifo ∧
    (mark_disconnected sh).last_frame_time = sh.last_frame_time ∧
    (mark_connected sh now).audio_fifo = [] := by
  simp [mark_disconnected, mark_connected]

/-- C5 (confirmed): in the SRT audio state audio is encoded in whole
frames only — when the Local SRT Queue (after the drain and trim) holds
fewer than one encoder frame's worth of samples, the tick encodes zero
audio frames instead of padding with silence, while the tick still encodes
its video frame (`use_srt_video` is true, so exactly one). -/
theorem C5_srt_whole_frames_only (c : Cfg) (s : LoopState) (i : TickIn)
    (hs : i.use_srt_video = true) :
    (main_loop_tick c s i).2.videoFrames = 1 ∧
    ((srt_drain_and_trim s.srt_local (s.shared_audio ++ i.shared_in)
        (srtMaxBuf c)).length < effAframeSz c.frame_size →
      (main_loop_tick c s i).2.audioFrames = []) ∧
    ((main_loop_tick c s i).2.audioFrames.map AudioFrameOut.data).flatten ++
        (main_loop_tick c s i).1.srt_local =
      srt_drain_and_trim s.srt_local (s.shared_audio ++ i.shared_in)
        (srtMaxBuf c) := by
  have hm : (audio_mode_step i.use_srt_video s.mode s.drop_time i.now
      c.grace_us).1 = AudioMode.SRT := by
    simp [audio_mode_step, hs]
  refine ⟨by simp [main_loop_tick, hs], ?_, ?_⟩
  · intro hl
    simp only [main_loop_tick, audio_catchup, hm]
    simp only [show (AudioMode.SRT = AudioMode.SRT) = True from by simp,
      if_true, ite_true]
    rw [catchup_fuel_srt_short _ _ _ _ _ _ _ hl]
  · simp only [main_loop_tick, audio_catchup, hm]
    simp only [show (AudioMode.SRT = AudioMode.SRT) = True from by simp,
      if_true, ite_true]
    exact catchup_fuel_srt_conserve _ _ _ _ _ _ _

/-- C5 witness: a tick in SRT state whose drained-and-trimmed local queue
is shorter than one frame encodes one video frame and no audio. -/
theorem C5_srt_defer_witness :
    (srt_drain_and_trim ([] : List Sample) (([] : List Sample) ++ [])
        (srtMaxBuf ⟨2, 3, 3, 0⟩)).length < effAframeSz 3 ∧
    (main_loop_tick ⟨2, 3, 3, 0⟩ initState ⟨true, false, [], [], 0⟩).2.videoFrames = 1 ∧
    (main_loop_tick ⟨2, 3, 3, 0⟩ initState ⟨true, false, [], [], 0⟩).2.audioFrames = [] :=
  ⟨by decide,
   (C5_srt_whole_frames_only ⟨2, 3, 3, 0⟩ initState
      ⟨true, false, [], [], 0⟩ rfl).1,
   (C5_srt_whole_frames_only ⟨2, 3, 3, 0⟩ initState
      ⟨true, false, [], [], 0⟩ rfl).2.1 (by decide)⟩

/-- C6 (confirmed): the audio source machine starts in BG; from any
non-SRT state it moves to SRT exactly when `use_srt_video` is true,
resetting the Background Audio Queue on entry; from SRT it moves to GRACE
when `use_srt_video` turns false, recording `drop_time = now`; from GRACE
it moves to BG exactly when `now - drop_time` strictly exceeds `grace_us`;
BG with `use_srt_video` false stays BG.  (Stated for the non-degenerate
configuration `0 ≤ grace_us`, i.e. a non-negative `bg_unmute_delay`.) -/
theorem C6_audio_machine_transitions (c : Cfg) (s : LoopState) (i : TickIn)
    (hg : 0 ≤ c.grace_us) :
    initState.mode = AudioMode.BG ∧
    (i.use_srt_video = true →
      (main_loop_tick c s i).1.mode = AudioMode.SRT ∧
      (s.mode ≠ AudioMode.SRT → (main_loop_tick c s i).1.bg_fifo = [])) ∧
    (i.use_srt_video = false → s.mode = AudioMode.SRT →
      (main_loop_tick c s i).1.mode = AudioMode.GRACE ∧
      (main_loop_tick c s i).1.drop_time = i.now) ∧
    (i.use_srt_video = false → s.mode = AudioMode.GRACE →
      ((main_loop_tick c s i).1.mode =
        if c.grace_us < i.now - s.drop_time then AudioMode.BG
        else AudioMode.GRACE) ∧
      (main_loop_tick c s i).1.drop_time = s.drop_time) ∧
    (i.use_srt_video = false → s.mode = AudioMode.BG →
      (main_loop_tick c s i).1.mode = AudioMode.BG ∧
      (main_loop_tick c s i).1.drop_time = s.drop_time) := by
  refine ⟨rfl, ?_, ?_, ?_, ?_⟩
  · intro hs
    refine ⟨by simp [main_loop_tick, audio_mode_step, hs], ?_⟩
    intro hmode
    have hm : (audio_mode_step i.use_srt_video s.mode s.drop_time i.now
        c.grace_us).1 = AudioMode.SRT := by
      simp [audio_mode_step, hs]
    simp only [main_loop_tick, audio_catchup, hm]
    simp only [show (AudioMode.SRT = AudioMode.SRT) = True from by simp,
      if_true, ite_true]
    simp only [hs, hmode]
    have hb : (if True ∧ s.mode ≠ AudioMode.SRT then ([] : List Sample)
        else s.bg_fifo ++ i.bg_audio) = [] := if_pos ⟨trivial, hmode⟩
    rw [hb]
    exact catchup_fuel_srt_bgq _ _ _ _ _ _ _
  · intro hs hmode
    constructor
    · simp only [main_loop_tick, audio_mode_step, hs, hmode]
      simp only [Bool.false_eq_true, if_false, ite_false, ite_true, if_true]
      rw [if_neg]
      simp only [not_and]
      intro _
      omega
    · simp only [main_loop_tick, audio_mode_step, hs, hmode]
      simp only [Bool.false_eq_true, if_false, ite_false, ite_true, if_true]
      rw [if_neg]
      simp only [not_and]
      intro _
      omega
  · intro hs hmode
    constructor
    · simp only [main_loop_tick, audio_mode_step, hs, hmode]
      by_cases hcmp : c.grace_us < i.now - s.drop_time
      · simp [hcmp]
      · simp [hcmp, show ¬(i.now - s.drop_time > c.grace_us) from hcmp]
    · simp only [main_loop_tick, audio_mode_step, hs, hmode]
      by_cases hcmp : c.grace_us < i.now - s.drop_time
      · simp [hcmp]
      · simp [hcmp, show ¬(i.now - s.drop_time > c.grace_us) from hcmp]
  · intro hs hmode
    constructor
    · simp [main_loop_tick, audio_mode_step, hs, hmode]
    · simp [main_loop_tick, audio_mode_step, hs, hmode]

/-- C6 witness: concrete GRACE-to-BG transition with the grace interval
expired. -/
theorem C6_machine_witness :
    (0 : Int) ≤ (5 : Int) ∧
    (main_loop_tick ⟨2, 3, 3, 5⟩ ⟨1, 0, AudioMode.GRACE, 0, [], [], []⟩
        ⟨false, true, [], [], 9⟩).1.mode = AudioMode.BG :=
  ⟨by decide,
   by
    have h := (C6_audio_machine_transitions ⟨2, 3, 3, 5⟩
      ⟨1, 0, AudioMode.GRACE, 0, [], [], []⟩
      ⟨false, true, [], [], 9⟩ (by decide)).2.2.2.1 rfl rfl
    rw [h.1]
    decide⟩

/-- C7 (confirmed): in SRT state, after draining the shared audio into the
Local SRT Queue, the trim discards oldest samples so that the queue the
encode phase sees holds at most `(sample_rate * 300) / 1000` samples, and
what is kept is a suffix (the newest part) of the drained queue. -/
theorem C7_srt_queue_trim_bound (c : Cfg) (localq sharedq : List Sample) :
    (srt_drain_and_trim localq sharedq (srtMaxBuf c)).length ≤
      (c.sample_rate * 300) / 1000 ∧
    (srt_drain_and_trim localq sharedq (srtMaxBuf c)) <:+
      (localq ++ sharedq) := by
  simp only [srt_drain_and_trim, srtMaxBuf]
  constructor
  · split
    · simp
      omega
    · simp only [List.length_append] at *
      omega
  · split
    · exact List.drop_suffix _ _
    · exact List.suffix_refl _

/-- C8 (confirmed): `encode_one_audio_frame` builds a frame of exactly
`samples_per_frame` samples; with enough queued samples it reads exactly
that many, otherwise it zero-fills the whole frame, overlays the available
samples from the start, and leaves the queue empty; in every case the
frame gets `pts = audio_pts` and `audio_pts` then advances by exactly
`samples_per_frame`. -/
theorem C8_encode_one_audio_frame_spec (fifo : List Sample)
    (sz apts : Nat) :
    (encode_one_audio_frame fifo sz apts).1.pts = apts ∧
    (encode_one_audio_frame fifo sz apts).2.2 = apts + sz ∧
    (encode_one_audio_frame fifo sz apts).1.data.length = sz ∧
    (encode_one_audio_frame fifo sz apts).1.data =
      (if sz ≤ fifo.length then fifo.take sz
       else fifo ++ List.replicate (sz - fifo.length) silence) ∧
    (encode_one_audio_frame fifo sz apts).2.1 =
      (if sz ≤ fifo.length then fifo.drop sz else []) := by
  unfold encode_one_audio_frame
  by_cases h : sz ≤ fifo.length
  · simp [h]
  · simp [h]
    omega

/-- C9 (confirmed): both output-clock counters start at 0;
`video_pts` advances by exactly 1 per emitted video frame and `audio_pts`
by exactly `samples_per_frame` per emitted audio frame on every tick, so
both are monotonically non-decreasing and are functions of the emitted
frame counts alone — never rewritten from inbound timestamps. -/
theorem C9_output_clock (c : Cfg) (s : LoopState) (i : TickIn) :
    initState.video_pts = 0 ∧ initState.audio_pts = 0 ∧
    (main_loop_tick c s i).1.video_pts =
      s.video_pts + (main_loop_tick c s i).2.videoFrames ∧
    (main_loop_tick c s i).1.audio_pts =
      s.audio_pts + effAframeSz c.frame_size *
        (main_loop_tick c s i).2.audioFrames.length ∧
    s.video_pts ≤ (main_loop_tick c s i).1.video_pts ∧
    s.audio_pts ≤ (main_loop_tick c s i).1.audio_pts := by
  have hv : (main_loop_tick c s i).1.video_pts =
      s.video_pts + (main_loop_tick c s i).2.videoFrames := rfl
  have ha : (main_loop_tick c s i).1.audio_pts =
      s.audio_pts + effAframeSz c.frame_size *
        (main_loop_tick c s i).2.audioFrames.length := by
    simp only [main_loop_tick, audio_catchup]
    exact catchup_fuel_pts _ _ _ _ _ _ _ _
  exact ⟨rfl, rfl, hv, ha, by omega, by omega⟩

/-- C10 (confirmed): when both `--config` and a legacy positional URL are
given, the config file is loaded after the argument loop and
unconditionally overwrites `srt_url` with the file's value or the
empty-string default; hence for every config file that omits `srt_url`
the positional URL is discarded and the process prints usage and exits
with code 1 — in either argument order. -/
theorem C10_config_overwrites_positional_url (url path : String)
    (j : List (String × String))
    (fs : String → Option (List (String × String)))
    (hu : isPositional url = true)
    (hj : j.lookup "srt_url" = none)
    (hfs : fs path = some j) :
    (load_config j ⟨url, "background.mp4"⟩).srt_url = "" ∧
    mainStartup ["--config", path, url] fs = StartupResult.usageExit ∧
    mainStartup [url, "--config", path] fs = StartupResult.usageExit := by
  have hne : url ≠ "--config" := by
    intro h
    rw [h] at hu
    simp [isPositional] at hu
  have hlc : ∀ cfg : CliCfg, (load_config j cfg).srt_url = "" := by
    intro cfg
    simp [load_config, json_get_str, hj]
  have hparse1 : parseArgs ["--config", path, url] ⟨"", "background.mp4"⟩ none =
      (⟨url, "background.mp4"⟩, some path) := by
    simp [parseArgs, hu, hne]
  have hparse2 : parseArgs [url, "--config", path] ⟨"", "background.mp4"⟩ none =
      (⟨url, "background.mp4"⟩, some path) := by
    simp [parseArgs, hne, hu]
  refine ⟨hlc _, ?_, ?_⟩
  · simp [mainStartup, hparse1, hfs, hlc]
  · simp [mainStartup, hparse2, hfs, hlc]

/-- C10 witness: a concrete invocation with a config file lacking
`srt_url` and a positional URL ends at the usage message. -/
theorem C10_usage_witness :
    isPositional "srt://host:9000" = true ∧
    ([("bg_file", "bg.mp4")] : List (String × String)).lookup "srt_url" = none ∧
    mainStartup ["--config", "cfg.json", "srt://host:9000"]
      (fun _ => some [("bg_file", "bg.mp4")]) = StartupResult.usageExit :=
  ⟨by decide, by decide,
   (C10_config_overwrites_positional_url "srt://host:9000" "cfg.json"
      [("bg_file", "bg.mp4")] (fun _ => some [("bg_file", "bg.mp4")])
      (by decide) (by decide) rfl).2.1⟩

end SrtCompositor
